import Mathlib

/-!
# Verification of the agent-loop orchestrator (`agent_loop.py`)

A shallow embedding of the parts of `agent_loop.py` that the specification's
claims are about, together with theorems settling each claim.

Conventions of the embedding:
* Python strings are Lean `String`s; the handful of `str` methods the source
  uses (`strip`, `split("\n")`, `startswith`, `endswith`, `zfill`, `isdigit`,
  `in`, `replace`) are reimplemented over `List Char` with Python semantics.
* Filesystem observations (existence of files, file contents, modification
  times) are passed in explicitly; `Option String` models a file that may be
  missing or unreadable.
* Python `int(...)`/`str(...)` are modelled by `pyInt`/`intRepr` (decimal,
  optional sign; Python's underscore separators and non-ASCII digits are out
  of scope for the three-line state files this program writes).
* Code that catches exceptions is modelled with `Except`, caught explicitly.
-/

/-! ## Python string primitives -/

/-- The whitespace characters stripped by Python's `str.strip()` (ASCII). -/
def isPyWS (c : Char) : Bool :=
  c == ' ' || c == '\t' || c == '\n' || c == '\r' || c == '\x0b' || c == '\x0c'

/-- `s.strip()` on a character list: drop whitespace from both ends. -/
def pyStripChars (cs : List Char) : List Char :=
  ((cs.dropWhile isPyWS).reverse.dropWhile isPyWS).reverse

/-- `s.split("\n")` on a character list.  Python returns `[""]` on the empty
string and keeps empty segments. -/
def splitNlChars : List Char → List (List Char)
  | [] => [[]]
  | c :: cs =>
    if c = '\n' then [] :: splitNlChars cs
    else
      match splitNlChars cs with
      | [] => [[c]]
      | l :: ls => (c :: l) :: ls

/-- `s.strip()`. -/
def pyStrip (s : String) : String := ⟨pyStripChars s.data⟩

/-- `s.split("\n")`. -/
def pySplitNl (s : String) : List String := (splitNlChars s.data).map String.mk

/-- ASCII decimal digit test (the case `str.isdigit` spots in this program). -/
def isPyDigit (c : Char) : Bool := 48 ≤ c.toNat && c.toNat ≤ 57

/-- Numeric value of a digit character. -/
def digitVal (c : Char) : Nat := c.toNat - 48

/-- The decimal digit character for `d` (`d ≤ 9` in every use). -/
def natToDigitChar (d : Nat) : Char :=
  match d with
  | 0 => '0' | 1 => '1' | 2 => '2' | 3 => '3' | 4 => '4'
  | 5 => '5' | 6 => '6' | 7 => '7' | 8 => '8' | _ => '9'

/-- Fuel-driven digit accumulation: the decimal digits of `n` in front of
`acc`, mirroring how CPython renders a non-negative `int`. -/
def natReprAux : Nat → Nat → List Char → List Char
  | 0, _, acc => acc
  | fuel + 1, n, acc =>
    let acc' := natToDigitChar (n % 10) :: acc
    if n < 10 then acc' else natReprAux fuel (n / 10) acc'

/-- Decimal representation of a natural number, `str(n)` for `n ≥ 0`. -/
def natReprChars (n : Nat) : List Char := natReprAux (n + 1) n []

/-- `str(n)` for a natural number. -/
def natRepr (n : Nat) : String := ⟨natReprChars n⟩

/-- `str(i)` for a Python `int` (a minus sign in front of the digits). -/
def intRepr : Int → String
  | Int.ofNat n => natRepr n
  | Int.negSucc n => "-" ++ natRepr (n + 1)

/-- Left fold computing the value of a digit string on top of accumulator `a`. -/
def foldVal (a : Nat) (cs : List Char) : Nat :=
  cs.foldl (fun a c => a * 10 + digitVal c) a

/-- Parse a non-empty all-digit character list, `none` otherwise. -/
def parseDigits (cs : List Char) : Option Nat :=
  if cs.isEmpty then none
  else if cs.all isPyDigit then some (foldVal 0 cs) else none

/-- Python `int(s)`: surrounding whitespace is ignored, one optional sign,
then decimal digits; anything else raises `ValueError` (the `error` case). -/
def pyInt (s : String) : Except Unit Int :=
  match pyStripChars s.data with
  | [] => Except.error ()
  | c :: rest =>
    if c = '-' then
      (parseDigits rest).elim (Except.error ()) (fun n => Except.ok (-(n : Int)))
    else if c = '+' then
      (parseDigits rest).elim (Except.error ()) (fun n => Except.ok (n : Int))
    else
      (parseDigits (c :: rest)).elim (Except.error ()) (fun n => Except.ok (n : Int))

/-- `s.startswith(pre)`. -/
def pyStartsWith (s pre : String) : Bool := pre.data.isPrefixOf s.data

/-- `s.endswith(suf)`. -/
def pyEndsWith (s suf : String) : Bool := suf.data.isSuffixOf s.data

/-- `sub in s` (substring containment). -/
def pyContains (sub s : String) : Bool := decide (sub.data <:+: s.data)

/-- `s.isdigit()` (ASCII digits). -/
def pyIsDigit (s : String) : Bool := !s.data.isEmpty && s.data.all isPyDigit

/-- `s.zfill(width)` for the sign-free strings this program applies it to. -/
def zfill (width : Nat) (s : String) : String :=
  ⟨List.replicate (width - s.data.length) '0' ++ s.data⟩

/-- Python's lexicographic string comparison (by code point), used to model
`list.sort()` over slugs. -/
def charListLe : List Char → List Char → Bool
  | [], _ => true
  | _ :: _, [] => false
  | a :: xs, b :: ys =>
    if a.toNat < b.toNat then true
    else if b.toNat < a.toNat then false
    else charListLe xs ys

/-- `a <= b` on Python strings. -/
def pyStrLe (a b : String) : Bool := charListLe a.data b.data

/-- `s.replace(pat, rep)` (all non-overlapping occurrences, left to right),
fuel-driven; `fuel ≥ cs.length` makes it total on `cs`. -/
def replaceCharsAux (pat rep : List Char) : Nat → List Char → List Char
  | 0, cs => cs
  | _ + 1, [] => []
  | fuel + 1, c :: cs =>
    if pat.isPrefixOf (c :: cs) then
      rep ++ replaceCharsAux pat rep fuel ((c :: cs).drop pat.length)
    else c :: replaceCharsAux pat rep fuel cs

/-- `s.replace(pat, rep)` for a non-empty pattern. -/
def pyReplace (s pat rep : String) : String :=
  ⟨replaceCharsAux pat.data rep.data s.data.length s.data⟩

/-! ## Task phases and the `.task-state` file

From `class TaskPhase(Enum)` and `persist_task_state` / `load_task_state`. -/

/-- The four task lifecycle phases (`class TaskPhase(Enum)`). -/
inductive TaskPhase
  | PLANNING
  | EXECUTING
  | OUTBOUND
  | MERGING
deriving DecidableEq

/-- The `value` of each enum member. -/
def TaskPhase.value : TaskPhase → String
  | .PLANNING => "planning"
  | .EXECUTING => "executing"
  | .OUTBOUND => "outbound"
  | .MERGING => "merging"

/-- `TaskPhase(s)`: enum lookup by value; `none` models the `ValueError`. -/
def TaskPhase.ofString (s : String) : Option TaskPhase :=
  if s = "planning" then some .PLANNING
  else if s = "executing" then some .EXECUTING
  else if s = "outbound" then some .OUTBOUND
  else if s = "merging" then some .MERGING
  else none

/-- `persist_task_state`: the exact text written to `.task-state` —
`f"{task.phase.value}\n{task.planning_iteration}\n{rate_limited}\n"` with
`rate_limited = "1" if task.codex_rate_limited else "0"`. -/
def persist_task_state (phase : TaskPhase) (iteration : Int) (rl : Bool) : String :=
  phase.value ++ "\n" ++ intRepr iteration ++ "\n" ++ (if rl then "1" else "0") ++ "\n"

/-- The `try:` body of `load_task_state`: split the stripped file text on
newlines and parse phase, iteration and rate-limit flag; `error` models a
`ValueError` escaping to the handler. -/
def loadTaskStateAttempt (content : String) : Except Unit (TaskPhase × Int × Bool) := do
  let lines := pySplitNl (pyStrip content)
  let phase ← match lines with
    | [] => pure TaskPhase.PLANNING
    | l0 :: _ =>
      match TaskPhase.ofString l0 with
      | some p => pure p
      | none => Except.error ()
  let iteration ← if h : 1 < lines.length then pyInt (lines.get ⟨1, h⟩) else pure 0
  let rl := if h : 2 < lines.length then decide (lines.get ⟨2, h⟩ = "1") else false
  pure (phase, iteration, rl)

/-- `load_task_state`: `none` content models a missing `.task-state` file;
parse errors fall back to `(PLANNING, 0, False)`. -/
def load_task_state (content : Option String) : TaskPhase × Int × Bool :=
  match content with
  | none => (TaskPhase.PLANNING, 0, false)
  | some c =>
    match loadTaskStateAttempt c with
    | Except.ok v => v
    | Except.error _ => (TaskPhase.PLANNING, 0, false)

/-! ## Worktree creation: branch decision (`create_worktree`)

The environment is abstracted as a `BranchState`: whether `task/<slug>`
exists, its `git rev-list --count main..branch` count, and the set of blob
paths present at its tip (queried with `git cat-file -e branch:path`). -/

/-- `sanitize_slug`: path separators to dashes, `..` to `-`, then keep only
alphanumerics, dashes and underscores. -/
def sanitize_slug (s : String) : String :=
  let s1 := s.data.map (fun c => if c == '/' then '-' else c)
  let s2 := s1.map (fun c => if c == '\\' then '-' else c)
  let s3 := replaceCharsAux ['.', '.'] ['-'] s2.length s2
  ⟨s3.filter (fun c => c.isAlphanum || c == '-' || c == '_')⟩

/-- Observable state of the branch `task/<slug>` when `create_worktree` runs. -/
structure BranchState where
  branchExists : Bool
  aheadCount : Nat
  blobs : List String
deriving DecidableEq

/-- What `create_worktree` decides to do with the branch. -/
inductive BranchDecision
  | createFromMain
  | resetToMain
  | preserve
deriving DecidableEq

/-- The one blob path `create_worktree` probes for execution evidence:
`workspace/tasks/in-progress/{slug}/agent_logs/claude-execute.log`. -/
def claude_execute_log_path (slug : String) : String :=
  "workspace/tasks/in-progress/" ++ slug ++ "/agent_logs/claude-execute.log"

/-- The branch-handling decision of `create_worktree` (lines 239–281): an
existing branch ahead of main is preserved iff the blob
`claude_execute_log_path slug` exists on it, otherwise it is reset with
`git branch -f <branch> main`; a branch at main is always reset; a missing
branch is created from main. -/
def create_worktree_branch_decision (slug : String) (b : BranchState) : BranchDecision :=
  let slug := sanitize_slug slug
  if b.branchExists then
    if b.aheadCount > 0 then
      if b.blobs.contains (claude_execute_log_path slug) then .preserve
      else .resetToMain
    else .resetToMain
  else .createFromMain

/-- Modelled from the spec: a blob path under the task's `agent_logs/`
matching the glob `agent_logs/*exec*.log` (a single path component whose
name contains `exec` and ends in `.log`).  This is the spec's notion of
"execution log blob", written for comparison with the code's probe. -/
def spec_exec_log_blob (slug : String) (path : String) : Bool :=
  let pre := "workspace/tasks/in-progress/" ++ slug ++ "/agent_logs/"
  pyStartsWith path pre &&
    (let name : String := ⟨path.data.drop pre.data.length⟩
     !name.data.contains '/' && pyContains "exec" name && pyEndsWith name ".log")

/-! ## Rate-limit detection (`check_codex_rate_limit`)

`agent_logs/` is abstracted as `Option (List LogFile)`: `none` when the
directory does not exist, otherwise the files with name, mtime and contents
(`none` contents model an unreadable file, whose `read_text()` raises). -/

/-- A log file as `check_codex_rate_limit` observes it. -/
structure LogFile where
  name : String
  mtime : Nat
  content : Option String
deriving DecidableEq

/-- Whether a file name matches the glob `pre ++ "*.log"` (e.g.
`codex-exec-*.log`): the prefix, the `.log` suffix, and enough room for both. -/
def globMatchStarLog (pre : String) (name : String) : Bool :=
  pyStartsWith name pre && pyEndsWith name ".log" &&
    decide (pre.data.length + 4 ≤ name.data.length)

/-- The rate-limit markers searched for in the latest Codex log. -/
def hasRateLimitMarker (c : String) : Bool :=
  pyContains "usage_limit_reached" c || pyContains "You\x27ve hit your usage limit" c

/-- The Codex logs `check_codex_rate_limit` globs:
`codex-exec-*.log` then `codex-review-*.log`, in directory order. -/
def codexLogs (files : List LogFile) : List LogFile :=
  files.filter (fun f => globMatchStarLog "codex-exec-" f.name) ++
    files.filter (fun f => globMatchStarLog "codex-review-" f.name)

/-- `check_codex_rate_limit` (lines 816–837): `False` when `agent_logs/` is
missing or no Codex log matches; otherwise examine only the most recently
modified matching log (`sorted(..., key=mtime, reverse=True)[0]`) for the
markers; an unreadable log yields `False` via the `except` clause. -/
def check_codex_rate_limit (logDir : Option (List LogFile)) : Bool :=
  match logDir with
  | none => false
  | some files =>
    let all_logs := List.insertionSort (fun a b => b.mtime ≤ a.mtime) (codexLogs files)
    match all_logs.head? with
    | none => false
    | some latest =>
      match latest.content with
      | none => false
      | some c => hasRateLimitMarker c

/-! ## Active tasks and agent selection -/

/-- The persistent core of an `ActiveTask` (slug, phase, planning iteration,
rate-limit flag); process handles and paths are environment, not state. -/
structure TaskCore where
  slug : String
  phase : TaskPhase
  planning_iteration : Int
  codex_rate_limited : Bool
deriving DecidableEq

/-- Agent choice in `start_review_async`:
`"claude" if task.codex_rate_limited else "codex"`. -/
def review_agent_name (rl : Bool) : String := if rl then "claude" else "codex"

/-- Agent choice in `start_task_execution_async`:
`"claude" if task.codex_rate_limited else "codex"`. -/
def exec_agent_name (rl : Bool) : String := if rl then "claude" else "codex"

/-- The merge agent of `start_merge_agent_async` is always `"claude"`. -/
def merge_agent_name : String := "claude"

/-- `start_task_execution_async` (state part): sets `phase := EXECUTING`,
persists, and launches the agent chosen by the rate-limit flag. -/
def start_task_execution (t : TaskCore) : TaskCore × String :=
  ({ t with phase := TaskPhase.EXECUTING }, exec_agent_name t.codex_rate_limited)

/-- The rate-limit flag update performed by `advance_planning_tasks`
(lines 1352–1355): `if not task.codex_rate_limited and check_codex_rate_limit(task):
task.codex_rate_limited = True`. -/
def planning_rl_update (rl : Bool) (logDir : Option (List LogFile)) : Bool :=
  if !rl && check_codex_rate_limit logDir then true else rl

/-- Outcome of one `handle_execution_tasks` visit to a task. -/
inductive ExecOutcome
  | noop
  | queueForMerge (t : TaskCore)
  | relaunch (t : TaskCore) (agent : String)
deriving DecidableEq

/-- One task's treatment in `handle_execution_tasks` (lines 1444–1471).
`exit` is `check_task_subprocess`'s exit code (`none` while running or with
no process), `outboundTicket` whether `outbound/<slug>/ticket.md` exists in
the worktree, `logDir` the contents of the task's `agent_logs/`. -/
def handle_execution_task (t : TaskCore) (exit : Option Int)
    (outboundTicket : Bool) (logDir : Option (List LogFile)) : ExecOutcome :=
  match exit with
  | none => .noop
  | some code =>
    if outboundTicket then
      .queueForMerge { t with phase := TaskPhase.OUTBOUND }
    else if code ≠ 0 then
      let t' :=
        if !t.codex_rate_limited && check_codex_rate_limit logDir then
          { t with codex_rate_limited := true }
        else t
      let s := start_task_execution t'
      .relaunch s.1 s.2
    else
      let s := start_task_execution t
      .relaunch s.1 s.2

/-! ## The parallel task manager -/

/-- `ParallelTaskManager`: `active_tasks` models the Python `dict` as an
insertion-ordered association list with unique keys. -/
structure Manager where
  max_tasks : Nat
  priority_queue : List String
  active_tasks : List (String × TaskCore)
  merge_queue : List String
deriving DecidableEq

/-- Python `dict` assignment `d[k] = v`: update in place if the key exists,
else append. -/
def dictInsert (k : String) (v : TaskCore) (d : List (String × TaskCore)) :
    List (String × TaskCore) :=
  if d.any (fun p => p.1 == k) then
    d.map (fun p => if p.1 == k then (k, v) else p)
  else d ++ [(k, v)]

/-- `ParallelTaskManager.can_start_new_task`:
`len(self.active_tasks) < self.max_tasks`. -/
def Manager.can_start_new_task (m : Manager) : Bool :=
  m.active_tasks.length < m.max_tasks

/-- `ParallelTaskManager.add_task`. -/
def Manager.add_task (m : Manager) (t : TaskCore) : Manager :=
  { m with active_tasks := dictInsert t.slug t m.active_tasks }

/-- `ParallelTaskManager.queue_for_merge`. -/
def Manager.queue_for_merge (m : Manager) (slug : String) : Manager :=
  if m.merge_queue.contains slug then m
  else { m with merge_queue := m.merge_queue ++ [slug] }

/-! ## Startup recovery (`recover_existing_worktrees`) -/

/-- One entry of `git worktree list` plus the on-disk observations recovery
makes inside it: the persisted `.task-state` text (if any), and whether the
outbound ticket, the in-progress directory and `plan.md` exist. -/
structure WorktreeInfo where
  branch : String
  stateFile : Option String
  outboundTicket : Bool
  inProgressDir : Bool
  planMd : Bool
deriving DecidableEq

/-- `recover_existing_worktrees` (lines 1002–1061): every worktree whose
branch starts with `refs/heads/task/` becomes an `ActiveTask` — phase from
the queue directories first, falling back to the persisted state — and is
added to the manager unconditionally; OUTBOUND tasks are queued for merge.
(The `merge --abort` / `rebase --abort` healing steps have no effect on the
manager state modelled here.) -/
def recover_existing_worktrees (m : Manager) (wts : List WorktreeInfo) : Manager :=
  wts.foldl
    (fun m wt =>
      if !pyStartsWith wt.branch "refs/heads/task/" then m
      else
        let slug := pyReplace wt.branch "refs/heads/task/" ""
        let s := load_task_state wt.stateFile
        let phase :=
          if wt.outboundTicket then TaskPhase.OUTBOUND
          else if wt.inProgressDir && wt.planMd then TaskPhase.EXECUTING
          else if wt.inProgressDir then TaskPhase.PLANNING
          else s.1
        let m' := m.add_task ⟨slug, phase, s.2.1, s.2.2⟩
        if phase = TaskPhase.OUTBOUND then m'.queue_for_merge slug else m')
    m

/-! ## Task selection (`match_task_filter`, `pick_next_task`) -/

/-- `match_task_filter` (lines 1513–1526): a filter that is all digits is
zero-padded to four characters; a slug matches when it equals the filter or
starts with the filter followed by a dash. -/
def match_task_filter (slug : String) (filters : List String) : Bool :=
  filters.any (fun f0 =>
    let f := if pyIsDigit f0 then zfill 4 f0 else f0
    slug == f || pyStartsWith slug (f ++ "-"))

/-- The inner `for d in all_task_dirs` scan of `pick_next_task`: first slug
(in directory order) matching the selector. -/
def findMatch (p : String) : List String → Option String
  | [] => none
  | d :: ds => if match_task_filter d [p] then some d else findMatch p ds

/-- The `while manager.priority_queue` loop of `pick_next_task`: peek the
head selector; return its first match (popping the selector); otherwise
discard the selector and try the next.  Returns the pick (if any) and the
remaining priority queue. -/
def pickPrio : List String → List String → Option String × List String
  | [], _ => (none, [])
  | p :: pq, avail =>
    match findMatch p avail with
    | some d => (some d, pq)
    | none => pickPrio pq avail

/-- `pick_next_task` (lines 1529–1559) over the todo queue (slugs of task
directories carrying a `ticket.md`, in directory order), the skip set, and
the manager's priority queue.  Returns the chosen slug and the priority
queue afterwards; the fallback sorts the available slugs (`list.sort()`). -/
def pick_next_task (todo : List String) (skip : List String) (pq : List String) :
    Option String × List String :=
  let avail := todo.filter (fun s => !skip.contains s)
  if avail.isEmpty then (none, pq)
  else
    match pickPrio pq avail with
    | (some d, pq') => (some d, pq')
    | (none, pq') =>
      ((List.insertionSort (fun a b => pyStrLe a b = true) avail).head?, pq')

/-! ## Admission (`setup_task_in_worktree`, `start_new_task_if_available`) -/

/-- `setup_task_in_worktree` (manager-state part): fails when the slug has
no `ticket.md` in todo or `create_worktree` fails (`wtOk`), otherwise adds a
fresh PLANNING task.  Returns the new task (if any) and the manager. -/
def setup_task_in_worktree (todo : List String) (wtOk : String → Bool)
    (slug : String) (m : Manager) : Option TaskCore × Manager :=
  if !todo.contains slug then (none, m)
  else if !wtOk slug then (none, m)
  else
    let t : TaskCore := ⟨slug, TaskPhase.PLANNING, 0, false⟩
    (some t, m.add_task t)

/-- The `while manager.can_start_new_task()` loop of
`start_new_task_if_available` (lines 1425–1441), fuel-driven (each pass adds
the picked slug to `active_slugs`, so `todo.length + 1` fuel suffices). -/
def start_new_task_loop (todo : List String) (wtOk : String → Bool) :
    Nat → Manager → List String → Manager
  | 0, m, _ => m
  | fuel + 1, m, skip =>
    if m.can_start_new_task then
      match pick_next_task todo skip m.priority_queue with
      | (none, pq') => { m with priority_queue := pq' }
      | (some slug, pq') =>
        let m1 := { m with priority_queue := pq' }
        let r := setup_task_in_worktree todo wtOk slug m1
        start_new_task_loop todo wtOk fuel r.2 (slug :: skip)
    else m

/-- `start_new_task_if_available`. -/
def start_new_task_if_available (m : Manager) (todo : List String)
    (wtOk : String → Bool) : Manager :=
  start_new_task_loop todo wtOk (todo.length + 1) m (m.active_tasks.map (fun p => p.1))

/-! ## Rebase before merge (`rebase_before_merge`) -/

/-- `MAX_REBASE_ATTEMPTS = 3`. -/
def MAX_REBASE_ATTEMPTS : Nat := 3

/-- What one run of `rebase_before_merge` did: whether it returned `True`,
how many `git rebase` attempts it made, how many `git rebase --abort` calls
it issued, and whether it created the `.needs-manual-rebase` sentinel. -/
structure RebaseResult where
  success : Bool
  attempts : Nat
  aborts : Nat
  sentinel : Bool
deriving DecidableEq

/-- The `for attempt in range(MAX_REBASE_ATTEMPTS)` loop (lines 674–709):
`outcome i` tells whether the i-th `git rebase origin/main` exits 0.
Success returns immediately; each failure is followed by `rebase --abort`;
exhaustion touches `.needs-manual-rebase` and returns `False`. -/
def rebase_attempts_loop (outcome : Nat → Bool) : Nat → Nat → Nat → RebaseResult
  | 0, attempts, aborts => ⟨false, attempts, aborts, true⟩
  | fuel + 1, attempts, aborts =>
    if outcome attempts then ⟨true, attempts + 1, aborts, false⟩
    else rebase_attempts_loop outcome fuel (attempts + 1) (aborts + 1)

/-- `rebase_before_merge`. -/
def rebase_before_merge (outcome : Nat → Bool) : RebaseResult :=
  rebase_attempts_loop outcome MAX_REBASE_ATTEMPTS 0 0

/-! ## Helper lemmas: digits and decimal printing -/

theorem char_ne_of_toNat_ne {c d : Char} (h : c.toNat ≠ d.toNat) : c ≠ d :=
  fun he => h (he ▸ rfl)

theorem isPyDigit_iff {c : Char} : isPyDigit c = true ↔ 48 ≤ c.toNat ∧ c.toNat ≤ 57 := by
  simp [isPyDigit]

theorem isPyWS_eq_false_of_isPyDigit {c : Char} (h : isPyDigit c = true) :
    isPyWS c = false := by
  have h' := isPyDigit_iff.mp h
  have h32 : c.toNat ≠ 32 := by omega
  have h9 : c.toNat ≠ 9 := by omega
  have h10 : c.toNat ≠ 10 := by omega
  have h13 : c.toNat ≠ 13 := by omega
  have h11 : c.toNat ≠ 11 := by omega
  have h12 : c.toNat ≠ 12 := by omega
  simp only [isPyWS, Bool.or_eq_false_iff, beq_eq_false_iff_ne]
  exact ⟨⟨⟨⟨⟨char_ne_of_toNat_ne h32, char_ne_of_toNat_ne h9⟩,
    char_ne_of_toNat_ne h10⟩, char_ne_of_toNat_ne h13⟩,
    char_ne_of_toNat_ne h11⟩, char_ne_of_toNat_ne h12⟩

theorem ne_newline_of_isPyDigit {c : Char} (h : isPyDigit c = true) : c ≠ '\n' := by
  have h' := isPyDigit_iff.mp h
  have h10 : ('\n').toNat = 10 := rfl
  exact char_ne_of_toNat_ne (by omega)

theorem isPyDigit_natToDigitChar (d : Nat) : isPyDigit (natToDigitChar d) = true := by
  unfold natToDigitChar
  split <;> decide

theorem digitVal_natToDigitChar {d : Nat} (h : d < 10) :
    digitVal (natToDigitChar d) = d := by
  interval_cases d <;> rfl

theorem natReprAux_append (fuel n : Nat) (acc : List Char) :
    natReprAux fuel n acc = natReprAux fuel n [] ++ acc := by
  induction fuel generalizing n acc with
  | zero => simp [natReprAux]
  | succ fuel ih =>
    by_cases h : n < 10
    · simp [natReprAux, h]
    · simp only [natReprAux, if_neg h]
      rw [ih (n / 10) (natToDigitChar (n % 10) :: acc),
        ih (n / 10) [natToDigitChar (n % 10)]]
      simp

theorem natReprAux_digits (fuel n : Nat) :
    ∀ c ∈ natReprAux fuel n [], isPyDigit c = true := by
  induction fuel generalizing n with
  | zero => simp [natReprAux]
  | succ fuel ih =>
    intro c hc
    by_cases h : n < 10
    · simp [natReprAux, h] at hc
      subst hc
      exact isPyDigit_natToDigitChar _
    · simp only [natReprAux, if_neg h] at hc
      rw [natReprAux_append] at hc
      rcases List.mem_append.mp hc with h1 | h1
      · exact ih _ _ h1
      · simp at h1
        subst h1
        exact isPyDigit_natToDigitChar _

theorem foldVal_append (a : Nat) (xs ys : List Char) :
    foldVal a (xs ++ ys) = foldVal (foldVal a xs) ys := by
  simp [foldVal, List.foldl_append]

theorem natReprAux_val (fuel : Nat) : ∀ n, n < 10 ^ fuel →
    foldVal 0 (natReprAux fuel n []) = n := by
  induction fuel with
  | zero =>
    intro n hn
    interval_cases n
    simp [natReprAux, foldVal]
  | succ fuel ih =>
    intro n hn
    by_cases h : n < 10
    · simp only [natReprAux, if_pos h]
      simp [foldVal, Nat.mod_eq_of_lt h, digitVal_natToDigitChar h]
    · simp only [natReprAux, if_neg h]
      rw [natReprAux_append, foldVal_append]
      have hdiv : n / 10 < 10 ^ fuel := by
        rw [Nat.div_lt_iff_lt_mul (by norm_num)]
        calc n < 10 ^ (fuel + 1) := hn
        _ = 10 ^ fuel * 10 := by ring
      rw [ih (n / 10) hdiv]
      simp [foldVal, digitVal_natToDigitChar (Nat.mod_lt n (by norm_num))]
      omega

theorem natReprChars_digits (n : Nat) : ∀ c ∈ natReprChars n, isPyDigit c = true :=
  natReprAux_digits (n + 1) n

theorem natReprChars_val (n : Nat) : foldVal 0 (natReprChars n) = n := by
  have hn : n < 10 ^ (n + 1) := by
    calc n < 10 ^ n := Nat.lt_pow_self (by norm_num) n
    _ ≤ 10 ^ (n + 1) := Nat.pow_le_pow_right (by norm_num) (Nat.le_succ n)
  exact natReprAux_val (n + 1) n hn

theorem natReprChars_ne_nil (n : Nat) : natReprChars n ≠ [] := by
  unfold natReprChars
  by_cases h : n < 10
  · simp [natReprAux, h]
  · simp only [natReprAux, if_neg h]
    rw [natReprAux_append]
    simp

theorem parseDigits_natReprChars (n : Nat) : parseDigits (natReprChars n) = some n := by
  have hne := natReprChars_ne_nil n
  have hd := natReprChars_digits n
  have hv := natReprChars_val n
  simp only [parseDigits]
  rw [if_neg (by simpa [List.isEmpty_iff] using hne), if_pos (by simpa [List.all_eq_true] using hd)]
  rw [hv]

/-! ## Helper lemmas: strip and split -/

theorem dropWhile_eq_self_of_all_false {p : Char → Bool} {cs : List Char}
    (h : ∀ c ∈ cs, p c = false) : cs.dropWhile p = cs := by
  cases cs with
  | nil => rfl
  | cons c cs => simp [List.dropWhile_cons, h c (by simp)]

theorem pyStripChars_of_digits {cs : List Char} (h : ∀ c ∈ cs, isPyDigit c = true) :
    pyStripChars cs = cs := by
  have hws : ∀ c ∈ cs, isPyWS c = false := fun c hc => isPyWS_eq_false_of_isPyDigit (h c hc)
  unfold pyStripChars
  rw [dropWhile_eq_self_of_all_false hws,
    dropWhile_eq_self_of_all_false (fun c hc => hws c (List.mem_reverse.mp hc)),
    List.reverse_reverse]

/-- Stripping text of the shape `body ++ "\n"` where `body` neither starts
nor ends with whitespace gives back `body`. -/
theorem pyStripChars_body_newline (hd : Char) (mid : List Char) (lst : Char)
    (hhd : isPyWS hd = false) (hlst : isPyWS lst = false) :
    pyStripChars ((hd :: mid ++ [lst]) ++ ['\n']) = hd :: mid ++ [lst] := by
  have e1 : (hd :: mid ++ [lst]) ++ ['\n'] = hd :: (mid ++ [lst] ++ ['\n']) := by simp
  have e2 : List.dropWhile isPyWS (hd :: (mid ++ [lst] ++ ['\n'])) =
      hd :: (mid ++ [lst] ++ ['\n']) := by
    rw [List.dropWhile_cons, if_neg (by simp [hhd])]
  have e3 : (hd :: (mid ++ [lst] ++ ['\n'])).reverse =
      '\n' :: lst :: (mid.reverse ++ [hd]) := by simp
  have e4 : List.dropWhile isPyWS ('\n' :: lst :: (mid.reverse ++ [hd])) =
      lst :: (mid.reverse ++ [hd]) := by
    rw [List.dropWhile_cons, if_pos (by decide), List.dropWhile_cons,
      if_neg (by simp [hlst])]
  unfold pyStripChars
  rw [e1, e2, e3, e4]
  simp

theorem splitNlChars_append {xs : List Char} (ys : List Char)
    (h : ∀ c ∈ xs, c ≠ '\n') :
    splitNlChars (xs ++ '\n' :: ys) = xs :: splitNlChars ys := by
  induction xs with
  | nil => simp [splitNlChars]
  | cons c cs ih =>
    have hc : c ≠ '\n' := h c (by simp)
    rw [List.cons_append]
    rw [splitNlChars, if_neg hc, ih (fun d hd => h d (by simp [hd]))]

theorem splitNlChars_singleton {c : Char} (h : c ≠ '\n') :
    splitNlChars [c] = [[c]] := by
  rw [splitNlChars, if_neg h]
  rfl

/-! ## The `.task-state` round trip -/

theorem phase_value_chars (phase : TaskPhase) :
    (∀ c ∈ phase.value.data, c ≠ '\n') ∧
      (∃ hd tl, phase.value.data = hd :: tl ∧ isPyWS hd = false) := by
  cases phase <;> exact ⟨by decide, _, _, rfl, by decide⟩

theorem persist_lines (phase : TaskPhase) (n : Nat) (rl : Bool) :
    pySplitNl (pyStrip (persist_task_state phase (n : Int) rl)) =
      [phase.value, natRepr n, if rl then "1" else "0"] := by
  have hdig := natReprChars_digits n
  have hnl : ∀ c ∈ natReprChars n, c ≠ '\n' := fun c hc => ne_newline_of_isPyDigit (hdig c hc)
  obtain ⟨hphnl, hd, tl, hph, hhd⟩ := phase_value_chars phase
  have hrlc : (if rl then "1" else "0") = String.mk [if rl then '1' else '0'] := by
    cases rl <;> rfl
  have hdata : (persist_task_state phase (n : Int) rl).data =
      (hd :: (tl ++ '\n' :: natReprChars n ++ ['\n']) ++ [if rl then '1' else '0']) ++ ['\n'] := by
    simp only [persist_task_state, intRepr, natRepr, hrlc, String.data_append, hph]
    cases rl <;> simp [String.mk]
  have hstrip : pyStripChars (persist_task_state phase (n : Int) rl).data =
      hd :: (tl ++ '\n' :: natReprChars n ++ ['\n']) ++ [if rl then '1' else '0'] := by
    rw [hdata]
    exact pyStripChars_body_newline hd _ _ hhd (by cases rl <;> decide)
  have hshape : hd :: (tl ++ '\n' :: natReprChars n ++ ['\n']) ++ [if rl then '1' else '0'] =
      phase.value.data ++ '\n' :: (natReprChars n ++ '\n' :: [if rl then '1' else '0']) := by
    rw [hph]
    simp
  have hsplit : splitNlChars (pyStripChars (persist_task_state phase (n : Int) rl).data) =
      [phase.value.data, natReprChars n, [if rl then '1' else '0']] := by
    rw [hstrip, hshape, splitNlChars_append _ hphnl, splitNlChars_append _ hnl,
      splitNlChars_singleton (by cases rl <;> decide)]
  show (splitNlChars (pyStripChars (persist_task_state phase (n : Int) rl).data)).map String.mk = _
  rw [hsplit]
  simp only [List.map]
  rw [hrlc]
  rfl

theorem ofString_value (phase : TaskPhase) :
    TaskPhase.ofString phase.value = some phase := by
  cases phase <;> rfl

theorem pyInt_natRepr (n : Nat) : pyInt (natRepr n) = Except.ok (n : Int) := by
  have hdig := natReprChars_digits n
  have hstrip : pyStripChars (natRepr n).data = natReprChars n :=
    pyStripChars_of_digits hdig
  obtain ⟨c, rest, hsh⟩ : ∃ c rest, natReprChars n = c :: rest := by
    cases h : natReprChars n with
    | nil => exact absurd h (natReprChars_ne_nil n)
    | cons c rest => exact ⟨c, rest, rfl⟩
  have hc : isPyDigit c = true := hdig c (by rw [hsh]; simp)
  have hcm : 48 ≤ c.toNat ∧ c.toNat ≤ 57 := isPyDigit_iff.mp hc
  have hminus : ('-').toNat = 45 := rfl
  have hplus : ('+').toNat = 43 := rfl
  have hne1 : c ≠ '-' := char_ne_of_toNat_ne (by omega)
  have hne2 : c ≠ '+' := char_ne_of_toNat_ne (by omega)
  have hpd : parseDigits (c :: rest) = some n := by
    rw [← hsh, parseDigits_natReprChars n]
  simp only [pyInt, hstrip, hsh, hne1, hne2, if_false, hpd]
  rfl

theorem loadTaskStateAttempt_eval (c : String) (l0 l1 l2 : String) (p : TaskPhase)
    (hl : pySplitNl (pyStrip c) = [l0, l1, l2])
    (hp : TaskPhase.ofString l0 = some p)
    (i : Int) (hi : pyInt l1 = Except.ok i) :
    loadTaskStateAttempt c = Except.ok (p, i, decide (l2 = "1")) := by
  simp [loadTaskStateAttempt, hl, hp, hi]

theorem persist_load_roundtrip (phase : TaskPhase) (n : Nat) (rl : Bool) :
    load_task_state (some (persist_task_state phase (n : Int) rl)) =
      (phase, (n : Int), rl) := by
  have h := loadTaskStateAttempt_eval (persist_task_state phase (n : Int) rl)
    phase.value (natRepr n) (if rl then "1" else "0") phase
    (persist_lines phase n rl) (ofString_value phase) (n : Int) (pyInt_natRepr n)
  rw [load_task_state, h]
  have hrl : decide ((if rl then "1" else "0") = "1") = rl := by
    cases rl <;> decide
  rw [hrl]

/-! ## Reduction lemmas for the `Except` monad -/

theorem except_pure {ε α : Type} (a : α) : (pure a : Except ε α) = Except.ok a := rfl

theorem except_bind_error {ε α β : Type} (e : ε) (f : α → Except ε β) :
    (Except.error e >>= f) = (Except.error e : Except ε β) := rfl

theorem except_bind_ok {ε α β : Type} (a : α) (f : α → Except ε β) :
    (Except.ok a >>= f) = f a := rfl

theorem except_map_error {ε α β : Type} (e : ε) (f : α → β) :
    (f <$> (Except.error e : Except ε α)) = Except.error e := rfl

theorem except_map_ok {ε α β : Type} (a : α) (f : α → β) :
    (f <$> (Except.ok a : Except ε α)) = Except.ok (f a) := rfl

/-! ## Claim theorems -/

/-- C2: for every task-state triple — a phase, a natural planning iteration
and a boolean rate-limit flag — `persist_task_state` followed by
`load_task_state` on the same `.task-state` text returns exactly that
triple (round-trip identity of the three-line persistence format). -/
theorem task_state_roundtrip (phase : TaskPhase) (n : Nat) (rl : Bool) :
    load_task_state (some (persist_task_state phase (n : Int) rl)) =
      (phase, (n : Int), rl) :=
  persist_load_roundtrip phase n rl

/-- C10: `load_task_state` is total and defaults safely: a missing file, an
empty file, an unknown phase on line one or a non-numeric iteration on line
two all produce `(PLANNING, 0, False)`; and the returned flag is `true` only
when a third line exists and is exactly `"1"` (any other third line gives
`False`).  Totality holds by construction: the `Except` error of the parse
attempt is caught and replaced by the default triple. -/
theorem load_task_state_defaults :
    load_task_state none = (TaskPhase.PLANNING, 0, false)
  ∧ load_task_state (some "") = (TaskPhase.PLANNING, 0, false)
  ∧ (∀ c l0 rest, pySplitNl (pyStrip c) = l0 :: rest →
      TaskPhase.ofString l0 = none →
      load_task_state (some c) = (TaskPhase.PLANNING, 0, false))
  ∧ (∀ c l0 l1 rest, pySplitNl (pyStrip c) = l0 :: l1 :: rest →
      pyInt l1 = Except.error () →
      load_task_state (some c) = (TaskPhase.PLANNING, 0, false))
  ∧ (∀ c, (load_task_state (some c)).2.2 = true →
      ∃ l0 l1 rest, pySplitNl (pyStrip c) = l0 :: l1 :: "1" :: rest) := by
  refine ⟨rfl, by decide, ?_, ?_, ?_⟩
  · intro c l0 rest hl hp
    simp [load_task_state, loadTaskStateAttempt, hl, hp, except_bind_error,
      except_map_error, except_map_ok]
  · intro c l0 l1 rest hl hi
    cases hp : TaskPhase.ofString l0 with
    | none =>
      simp [load_task_state, loadTaskStateAttempt, hl, hp, except_bind_error,
        except_map_error, except_map_ok]
    | some p =>
      simp [load_task_state, loadTaskStateAttempt, hl, hp, hi, except_pure,
        except_bind_ok, except_bind_error, except_map_error, except_map_ok]
  · intro c hrl
    rcases hl : pySplitNl (pyStrip c) with _ | ⟨l0, _ | ⟨l1, _ | ⟨l2, rest⟩⟩⟩
    · simp [load_task_state, loadTaskStateAttempt, hl, except_pure,
        except_bind_ok] at hrl
    · rcases hp : TaskPhase.ofString l0 with _ | p <;>
        simp [load_task_state, loadTaskStateAttempt, hl, hp, except_pure,
          except_bind_ok, except_bind_error] at hrl
    · rcases hp : TaskPhase.ofString l0 with _ | p <;>
        rcases hi : pyInt l1 with e | i <;>
        simp [load_task_state, loadTaskStateAttempt, hl, hp, hi, except_pure,
          except_bind_ok, except_bind_error, except_map_error, except_map_ok] at hrl
    · rcases hp : TaskPhase.ofString l0 with _ | p
      · simp [load_task_state, loadTaskStateAttempt, hl, hp, except_bind_error] at hrl
      · rcases hi : pyInt l1 with e | i
        · simp [load_task_state, loadTaskStateAttempt, hl, hp, hi, except_pure,
            except_bind_ok, except_bind_error, except_map_error] at hrl
        · have h2 : (load_task_state (some c)).2.2 = decide (l2 = "1") := by
            simp [load_task_state, loadTaskStateAttempt, hl, hp, hi, except_pure,
              except_bind_ok, except_map_ok]
          rw [h2] at hrl
          have h3 : l2 = "1" := of_decide_eq_true hrl
          subst h3
          exact ⟨l0, l1, rest, rfl⟩

theorem load_task_state_defaults_witness :
    load_task_state (some "bogus\n2\n1") = (TaskPhase.PLANNING, 0, false) ∧
    load_task_state (some "executing\nabc") = (TaskPhase.PLANNING, 0, false) := by
  constructor
  · exact load_task_state_defaults.2.2.1 "bogus\n2\n1" "bogus" ["2", "1"] rfl rfl
  · exact load_task_state_defaults.2.2.2.1 "executing\nabc" "executing" "abc" [] rfl rfl

/-- C3: for every EXECUTING task whose subprocess has exited with some code,
`handle_execution_tasks` applies exactly one restart case: outbound sentinel
present → OUTBOUND and queued for merge with no relaunch; exit ≠ 0 with the
rate-limit marker in the latest Codex log and the flag still unset → flag
flips to true and execution is relaunched with the backup agent; exit ≠ 0
otherwise → relaunch with the same agent; exit 0 without the sentinel →
relaunch (incomplete). -/
theorem handle_execution_restart_cases (t : TaskCore) (code : Int) (outb : Bool)
    (logDir : Option (List LogFile)) (_hph : t.phase = TaskPhase.EXECUTING) :
    (outb = true → handle_execution_task t (some code) outb logDir =
        ExecOutcome.queueForMerge { t with phase := TaskPhase.OUTBOUND })
  ∧ (outb = false → code ≠ 0 → t.codex_rate_limited = false →
        check_codex_rate_limit logDir = true →
        handle_execution_task t (some code) outb logDir =
          ExecOutcome.relaunch
            { t with codex_rate_limited := true, phase := TaskPhase.EXECUTING }
            "claude")
  ∧ (outb = false → code ≠ 0 →
        (t.codex_rate_limited = true ∨ check_codex_rate_limit logDir = false) →
        handle_execution_task t (some code) outb logDir =
          ExecOutcome.relaunch { t with phase := TaskPhase.EXECUTING }
            (exec_agent_name t.codex_rate_limited))
  ∧ (outb = false → code = 0 →
        handle_execution_task t (some code) outb logDir =
          ExecOutcome.relaunch { t with phase := TaskPhase.EXECUTING }
            (exec_agent_name t.codex_rate_limited)) := by
  refine ⟨?_, ?_, ?_, ?_⟩
  · intro ho
    subst ho
    simp [handle_execution_task]
  · intro ho hc hrl hm
    subst ho
    simp [handle_execution_task, hc, hrl, hm, start_task_execution, exec_agent_name]
  · intro ho hc hcase
    subst ho
    rcases hcase with hrl | hm
    · simp [handle_execution_task, hc, hrl, start_task_execution]
    · simp [handle_execution_task, hc, hm, start_task_execution]
  · intro ho hc
    subst ho hc
    simp [handle_execution_task, start_task_execution]

theorem handle_execution_restart_cases_witness :
    handle_execution_task ⟨"0001-demo", TaskPhase.EXECUTING, 0, false⟩ (some 1) false
        (some [⟨"codex-exec-1.log", 1, some "usage_limit_reached"⟩]) =
      ExecOutcome.relaunch ⟨"0001-demo", TaskPhase.EXECUTING, 0, true⟩ "claude" := by
  have h := handle_execution_restart_cases ⟨"0001-demo", TaskPhase.EXECUTING, 0, false⟩
    1 false (some [⟨"codex-exec-1.log", 1, some "usage_limit_reached"⟩]) rfl
  exact h.2.1 rfl (by decide) rfl (by decide)

/-- C5: a task whose `codex_rate_limited` flag is true never launches the
primary Codex agent again — review and execution both select the backup
`"claude"` command — and no embedded operation resets the flag to false:
the planning-phase update keeps it, `handle_execution_tasks` keeps it in
both its relaunch and queue-for-merge outcomes, and it round-trips as `"1"`
through the `.task-state` persistence. -/
theorem rate_limited_monotone_backup :
    (∀ logDir, planning_rl_update true logDir = true)
  ∧ review_agent_name true = "claude" ∧ review_agent_name true ≠ "codex"
  ∧ exec_agent_name true = "claude" ∧ exec_agent_name true ≠ "codex"
  ∧ merge_agent_name = "claude"
  ∧ (∀ t : TaskCore, t.codex_rate_limited = true →
      (start_task_execution t).2 = "claude" ∧
        (start_task_execution t).1.codex_rate_limited = true)
  ∧ (∀ t exit outb logDir t2 a, t.codex_rate_limited = true →
      handle_execution_task t exit outb logDir = ExecOutcome.relaunch t2 a →
      t2.codex_rate_limited = true ∧ a = "claude")
  ∧ (∀ t exit outb logDir t2, t.codex_rate_limited = true →
      handle_execution_task t exit outb logDir = ExecOutcome.queueForMerge t2 →
      t2.codex_rate_limited = true)
  ∧ (∀ phase (n : Nat),
      (load_task_state (some (persist_task_state phase (n : Int) true))).2.2 = true) := by
  refine ⟨?_, rfl, by decide, rfl, by decide, rfl, ?_, ?_, ?_, ?_⟩
  · intro logDir
    simp [planning_rl_update]
  · intro t hrl
    simp [start_task_execution, exec_agent_name, hrl]
  · intro t exit outb logDir t2 a hrl heq
    rcases exit with _ | code
    · simp [handle_execution_task] at heq
    · rcases houtb : outb with _ | _
      · subst houtb
        by_cases hc : code = 0
        · subst hc
          simp [handle_execution_task, start_task_execution, exec_agent_name, hrl] at heq
          obtain ⟨h1, h2⟩ := heq
          exact ⟨h1 ▸ rfl, h2.symm⟩
        · simp [handle_execution_task, hc, start_task_execution, exec_agent_name, hrl] at heq
          obtain ⟨h1, h2⟩ := heq
          exact ⟨h1 ▸ rfl, h2.symm⟩
      · subst houtb
        simp [handle_execution_task] at heq
  · intro t exit outb logDir t2 hrl heq
    rcases exit with _ | code
    · simp [handle_execution_task] at heq
    · rcases houtb : outb with _ | _
      · subst houtb
        by_cases hc : code = 0
        · subst hc
          simp [handle_execution_task, start_task_execution] at heq
        · simp [handle_execution_task, hc, start_task_execution, hrl] at heq
      · subst houtb
        simp [handle_execution_task] at heq
        rw [← heq]
        exact hrl
  · intro phase n
    rw [persist_load_roundtrip]

theorem rate_limited_monotone_backup_witness :
    planning_rl_update true none = true ∧
    (load_task_state (some (persist_task_state TaskPhase.EXECUTING (0 : Int) true))).2.2 = true :=
  ⟨rate_limited_monotone_backup.1 none,
    rate_limited_monotone_backup.2.2.2.2.2.2.2.2.2 TaskPhase.EXECUTING 0⟩

/-! ## C6: the latest matching log determines the rate-limit verdict -/

instance : IsTotal LogFile (fun a b => b.mtime ≤ a.mtime) :=
  ⟨fun a b => Nat.le_total b.mtime a.mtime⟩

instance : IsTrans LogFile (fun a b => b.mtime ≤ a.mtime) :=
  ⟨fun _ _ _ h1 h2 => le_trans h2 h1⟩

theorem head_insertionSort_unique_max (l : List LogFile) (f : LogFile)
    (hf : f ∈ l) (hmax : ∀ g ∈ l, g ≠ f → g.mtime < f.mtime) :
    (List.insertionSort (fun a b => b.mtime ≤ a.mtime) l).head? = some f := by
  have hsorted := List.sorted_insertionSort (fun a b => b.mtime ≤ a.mtime) l
  have hperm := List.perm_insertionSort (fun a b => b.mtime ≤ a.mtime) l
  cases hs : List.insertionSort (fun a b => b.mtime ≤ a.mtime) l with
  | nil =>
    rw [hs] at hperm
    exact absurd (hperm.symm.mem_iff.mp hf) (List.not_mem_nil f)
  | cons x xs =>
    rw [hs] at hsorted hperm
    have hx : x ∈ l := hperm.mem_iff.mp (by simp)
    by_cases hxf : x = f
    · rw [hxf]
      rfl
    · have hlt : x.mtime < f.mtime := hmax x hx hxf
      have hfmem : f ∈ x :: xs := hperm.mem_iff.mpr hf
      rcases List.mem_cons.mp hfmem with h | h
      · exact absurd h.symm hxf
      · have := List.rel_of_sorted_cons hsorted f h
        omega

/-- C6: `check_codex_rate_limit` returns false when `agent_logs/` does not
exist or no log matches the Codex exec/review globs; and when the matching
logs have a unique most-recently-modified file, the verdict is true iff that
single file's content contains one of the two rate-limit markers — no other
log is examined. -/
theorem check_codex_rate_limit_spec :
    check_codex_rate_limit none = false
  ∧ (∀ files, codexLogs files = [] → check_codex_rate_limit (some files) = false)
  ∧ (∀ files f, f ∈ codexLogs files →
      (∀ g ∈ codexLogs files, g ≠ f → g.mtime < f.mtime) →
      (check_codex_rate_limit (some files) = true ↔
        ∃ c, f.content = some c ∧ hasRateLimitMarker c = true)) := by
  refine ⟨rfl, ?_, ?_⟩
  · intro files h
    simp [check_codex_rate_limit, h]
  · intro files f hf hmax
    have hhead := head_insertionSort_unique_max (codexLogs files) f hf hmax
    rw [check_codex_rate_limit]
    rw [hhead]
    cases hc : f.content with
    | none => simp [hc]
    | some c => simp [hc]

theorem check_codex_rate_limit_spec_witness :
    check_codex_rate_limit
        (some [⟨"codex-exec-1.log", 1, some "ok"⟩,
               ⟨"codex-review-2.log", 9, some "usage_limit_reached"⟩,
               ⟨"notes.txt", 50, some "usage_limit_reached"⟩]) = true := by
  have h := check_codex_rate_limit_spec.2.2
    [⟨"codex-exec-1.log", 1, some "ok"⟩,
     ⟨"codex-review-2.log", 9, some "usage_limit_reached"⟩,
     ⟨"notes.txt", 50, some "usage_limit_reached"⟩]
    ⟨"codex-review-2.log", 9, some "usage_limit_reached"⟩
    (by decide) (by decide)
  exact h.mpr ⟨"usage_limit_reached", rfl, by decide⟩

/-! ## C1: branch preservation on `create_worktree` -/

/-- C1 (divergence evidence): a branch two commits ahead of main that
carries the execution log blob
`agent_logs/codex-exec-20250101-120000.log` — the very name pattern the
program's execution launcher writes, and a match for the spec's glob
`agent_logs/*exec*.log` — is nevertheless reset to main, because the code
probes only for the literal blob `agent_logs/claude-execute.log`; that
literal path is itself confirmed to differ from every log name this program
produces. -/
theorem create_worktree_resets_branch_with_exec_log :
    create_worktree_branch_decision "0001-demo"
        ⟨true, 2,
          ["workspace/tasks/in-progress/0001-demo/agent_logs/codex-exec-20250101-120000.log"]⟩
      = BranchDecision.resetToMain
  ∧ spec_exec_log_blob "0001-demo"
      "workspace/tasks/in-progress/0001-demo/agent_logs/codex-exec-20250101-120000.log" = true
  ∧ spec_exec_log_blob "0001-demo" (claude_execute_log_path "0001-demo") = true
  ∧ create_worktree_branch_decision "0001-demo"
        ⟨true, 2, [claude_execute_log_path "0001-demo"]⟩ = BranchDecision.preserve := by
  refine ⟨by decide, by decide, by decide, by decide⟩

/-! ## C9: bounded rebase-before-merge -/

/-- C9: `rebase_before_merge` makes at most `MAX_REBASE_ATTEMPTS = 3` rebase
attempts; it returns true as soon as an attempt succeeds, having aborted
exactly the failed attempts before it and creating no sentinel; and exactly
when all three attempts fail it creates `.needs-manual-rebase` and returns
false. -/
theorem rebase_before_merge_spec (outcome : Nat → Bool) :
    (rebase_before_merge outcome).attempts ≤ 3
  ∧ ((rebase_before_merge outcome).success = true ↔ ∃ i, i < 3 ∧ outcome i = true)
  ∧ ((rebase_before_merge outcome).sentinel = true ↔
      (rebase_before_merge outcome).success = false)
  ∧ ((rebase_before_merge outcome).success = true →
      outcome ((rebase_before_merge outcome).attempts - 1) = true ∧
      (∀ j, j < (rebase_before_merge outcome).attempts - 1 → outcome j = false) ∧
      (rebase_before_merge outcome).aborts = (rebase_before_merge outcome).attempts - 1)
  ∧ ((rebase_before_merge outcome).success = false →
      (rebase_before_merge outcome).attempts = 3 ∧
      (rebase_before_merge outcome).aborts = 3 ∧
      (rebase_before_merge outcome).sentinel = true ∧
      ∀ j, j < 3 → outcome j = false) := by
  rcases h0 : outcome 0 with _ | _ <;> rcases h1 : outcome 1 with _ | _ <;>
    rcases h2 : outcome 2 with _ | _ <;>
    simp only [rebase_before_merge, MAX_REBASE_ATTEMPTS, rebase_attempts_loop,
      h0, h1, h2, if_true, if_false, Bool.false_eq_true] <;>
    refine ⟨by omega, ?_, by simp, ?_, ?_⟩ <;> simp <;>
    first
      | exact ⟨0, by omega, h0⟩
      | exact ⟨1, by omega, h1⟩
      | exact ⟨2, by omega, h2⟩
      | exact h0
      | exact h1
      | exact h2
      | (intro j hj; interval_cases j <;> simp [h0, h1, h2])

theorem rebase_before_merge_spec_witness :
    (rebase_before_merge (fun _ => false)).attempts = 3 ∧
    (rebase_before_merge (fun _ => false)).sentinel = true :=
  ⟨((rebase_before_merge_spec (fun _ => false)).2.2.2.2 rfl).1,
   ((rebase_before_merge_spec (fun _ => false)).2.2.2.2 rfl).2.2.1⟩

/-! ## C7 and C8: task selection -/

theorem string_eq_of_data_eq {s t : String} (h : s.data = t.data) : s = t := by
  cases s
  cases t
  exact congrArg String.mk h

theorem pyStartsWith_iff {s pre : String} :
    pyStartsWith s pre = true ↔ ∃ r : String, s = pre ++ r := by
  rw [pyStartsWith, List.isPrefixOf_iff_prefix]
  constructor
  · rintro ⟨t, ht⟩
    refine ⟨⟨t⟩, string_eq_of_data_eq ?_⟩
    rw [String.data_append, ht]
  · rintro ⟨r, rfl⟩
    exact ⟨r.data, (String.data_append pre r).symm⟩

theorem findMatch_none {p : String} {avail : List String}
    (h : ∀ d ∈ avail, match_task_filter d [p] = false) :
    findMatch p avail = none := by
  induction avail with
  | nil => rfl
  | cons d ds ih =>
    rw [findMatch, if_neg (by simp [h d (by simp)])]
    exact ih (fun e he => h e (by simp [he]))

theorem pickPrio_all_none {pq : List String} (avail : List String)
    (h : ∀ p ∈ pq, ∀ d ∈ avail, match_task_filter d [p] = false) :
    pickPrio pq avail = (none, []) := by
  induction pq with
  | nil => rfl
  | cons p pq ih =>
    rw [pickPrio, findMatch_none (h p (by simp))]
    exact ih (fun q hq d hd => h q (by simp [hq]) d hd)

/-- C8 (corrected part): `pickPrio` discards a selector that matches no
available task after one full scan, and goes on with the next selector. -/
theorem pickPrio_discards_nonmatching (p : String) (pq avail : List String)
    (h : ∀ d ∈ avail, match_task_filter d [p] = false) :
    pickPrio (p :: pq) avail = pickPrio pq avail := by
  rw [pickPrio, findMatch_none h]

/-- C7 (amended): two successive `pick_next_task` calls — same todo queue,
same skip set — return the same slug, provided no priority selector matches
an available task (in particular whenever the selector queue is empty).
When a selector does match, the first call pops it, and the second call can
return a different slug (see the counterexample). -/
theorem pick_next_twice_same (todo skip pq : List String)
    (h : ∀ p ∈ pq, ∀ d ∈ todo.filter (fun s => !skip.contains s),
      match_task_filter d [p] = false) :
    (pick_next_task todo skip pq).1 =
      (pick_next_task todo skip (pick_next_task todo skip pq).2).1 := by
  by_cases he : (todo.filter (fun s => !skip.contains s)).isEmpty
  · have h1 : ∀ q : List String, pick_next_task todo skip q = (none, q) := by
      intro q
      rw [pick_next_task]
      simp only [he, if_true]
    simp [h1]
  · have h1 : pick_next_task todo skip pq =
        (((List.insertionSort (fun a b => pyStrLe a b = true)
            (todo.filter (fun s => !skip.contains s)))).head?, []) := by
      rw [pick_next_task]
      simp only [he, if_false, Bool.false_eq_true]
      rw [pickPrio_all_none _ h]
    have h2 : pick_next_task todo skip [] =
        (((List.insertionSort (fun a b => pyStrLe a b = true)
            (todo.filter (fun s => !skip.contains s)))).head?, []) := by
      rw [pick_next_task]
      simp only [he, if_false, Bool.false_eq_true]
      rw [pickPrio_all_none _ (by simp)]
    rw [h1, h2]

theorem pick_next_twice_same_witness :
    (pick_next_task ["0002-a", "0005-b"] [] ["9"]).1 =
      (pick_next_task ["0002-a", "0005-b"] []
        (pick_next_task ["0002-a", "0005-b"] [] ["9"]).2).1 := by
  exact pick_next_twice_same ["0002-a", "0005-b"] [] ["9"] (by decide)

/-- C7 (counterexample): with todo `{0002-a, 0005-b}`, no active slugs and
priority queue `["5"]`, the first `pick_next_task` returns `0005-b` and pops
the matched selector, so the second call — same todo, same skip set —
returns `0002-a`: the claim that two successive calls always return the
same slug is false. -/
theorem pick_next_twice_differs :
    (pick_next_task ["0002-a", "0005-b"] [] ["5"]).1 = some "0005-b"
  ∧ (pick_next_task ["0002-a", "0005-b"] []
      (pick_next_task ["0002-a", "0005-b"] [] ["5"]).2).1 = some "0002-a"
  ∧ (pick_next_task ["0002-a", "0005-b"] [] ["5"]).1 ≠
      (pick_next_task ["0002-a", "0005-b"] []
        (pick_next_task ["0002-a", "0005-b"] [] ["5"]).2).1 := by
  refine ⟨by decide, by decide, by decide⟩

/-- C8 (amended): a bare-integer selector is zero-padded to four digits and
matches a slug iff the slug equals `NNNN` or begins with `NNNN-` (so `"5"`
matches `0005-anything`); a non-numeric selector `f` matches a slug iff the
slug equals `f` or begins with `f ++ "-"` — so a full-slug selector matches
that slug but also any slug extending it after a dash, not exactly one
slug; and a selector that matches no available task is discarded after one
full scan. -/
theorem match_task_filter_spec :
    (∀ f s, pyIsDigit f = true →
      (match_task_filter s [f] = true ↔
        s = zfill 4 f ∨ ∃ r, s = zfill 4 f ++ "-" ++ r))
  ∧ (∀ f s, pyIsDigit f = false →
      (match_task_filter s [f] = true ↔ s = f ∨ ∃ r, s = f ++ "-" ++ r))
  ∧ match_task_filter "0005-anything" ["5"] = true
  ∧ (∀ p pq avail, (∀ d ∈ avail, match_task_filter d [p] = false) →
      pickPrio (p :: pq) avail = pickPrio pq avail) := by
  refine ⟨?_, ?_, by decide, fun p pq avail h => pickPrio_discards_nonmatching p pq avail h⟩
  · intro f s hf
    simp only [match_task_filter, List.any_cons, List.any_nil, Bool.or_false, hf, if_true,
      Bool.or_eq_true, beq_iff_eq, pyStartsWith_iff]
  · intro f s hf
    simp only [match_task_filter, List.any_cons, List.any_nil, Bool.or_false, hf, if_false,
      Bool.or_eq_true, beq_iff_eq, pyStartsWith_iff, Bool.false_eq_true]

theorem match_task_filter_spec_witness :
    match_task_filter "0005-anything" ["5"] = true ∧
    match_task_filter "0006-x" ["5"] = false := by
  constructor
  · exact (match_task_filter_spec.1 "5" "0005-anything" rfl).mpr
      (Or.inr ⟨"anything", by decide⟩)
  · decide

/-- C8 (counterexample): the full-slug selector `"0005-anything"` also
matches the longer slug `0005-anything-extra`, refuting "matches exactly
that slug and no other". -/
theorem full_slug_selector_not_exact :
    match_task_filter "0005-anything-extra" ["0005-anything"] = true
  ∧ "0005-anything-extra" ≠ "0005-anything" := by
  refine ⟨by decide, by decide⟩

/-! ## C4: the concurrency ceiling -/

theorem dictInsert_length (k : String) (v : TaskCore) (d : List (String × TaskCore)) :
    (dictInsert k v d).length ≤ d.length + 1 := by
  rw [dictInsert]
  split
  · simp
  · simp

theorem setup_task_in_worktree_bounds (todo : List String) (wtOk : String → Bool)
    (slug : String) (m : Manager) :
    (setup_task_in_worktree todo wtOk slug m).2.max_tasks = m.max_tasks ∧
      (setup_task_in_worktree todo wtOk slug m).2.active_tasks.length ≤
        m.active_tasks.length + 1 := by
  rw [setup_task_in_worktree]
  split
  · simp
  · split
    · simp
    · exact ⟨rfl, dictInsert_length _ _ _⟩

theorem start_new_task_loop_bound (todo : List String) (wtOk : String → Bool) :
    ∀ fuel (m : Manager) (skip : List String),
      m.active_tasks.length ≤ m.max_tasks →
      (start_new_task_loop todo wtOk fuel m skip).active_tasks.length ≤ m.max_tasks ∧
        (start_new_task_loop todo wtOk fuel m skip).max_tasks = m.max_tasks := by
  intro fuel
  induction fuel with
  | zero => exact fun m skip h => ⟨h, rfl⟩
  | succ fuel ih =>
    intro m skip h
    rw [start_new_task_loop]
    by_cases hc : m.can_start_new_task
    · rw [if_pos hc]
      have hlt : m.active_tasks.length < m.max_tasks := by
        simpa [Manager.can_start_new_task] using hc
      cases hp : pick_next_task todo skip m.priority_queue with
      | mk fst pq' =>
        cases fst with
        | none => exact ⟨le_of_lt hlt, rfl⟩
        | some slug =>
          have hs := setup_task_in_worktree_bounds todo wtOk slug
            { m with priority_queue := pq' }
          have hlen : (setup_task_in_worktree todo wtOk slug
              { m with priority_queue := pq' }).2.active_tasks.length ≤ m.max_tasks := by
            have := hs.2
            simp only at this
            omega
          have hmax : (setup_task_in_worktree todo wtOk slug
              { m with priority_queue := pq' }).2.max_tasks = m.max_tasks := hs.1
          have := ih (setup_task_in_worktree todo wtOk slug
            { m with priority_queue := pq' }).2 (slug :: skip) (by rw [hmax]; exact hlen)
          rw [hmax] at this
          exact this
    · rw [if_neg hc]
      exact ⟨h, rfl⟩

/-- C4 (amended): scheduler admission preserves the ceiling — a task is
admitted only while `can_start_new_task` holds, i.e. only when
`len(active_tasks) < max_tasks`, and `start_new_task_if_available` keeps
`len(active_tasks) ≤ max_tasks` whenever it held before; startup recovery,
however, adds one task per existing task worktree without consulting the
ceiling (see the counterexample), so the bound is not guaranteed "at all
times". -/
theorem admission_preserves_active_tasks_bound :
    (∀ m : Manager, ∀ todo wtOk, m.can_start_new_task = false →
        start_new_task_if_available m todo wtOk = m)
  ∧ (∀ m : Manager, m.can_start_new_task = true ↔
        m.active_tasks.length < m.max_tasks)
  ∧ (∀ m : Manager, ∀ todo wtOk, m.active_tasks.length ≤ m.max_tasks →
        (start_new_task_if_available m todo wtOk).active_tasks.length ≤ m.max_tasks) := by
  refine ⟨?_, ?_, ?_⟩
  · intro m todo wtOk h
    rw [start_new_task_if_available, start_new_task_loop, if_neg (by simp [h])]
  · intro m
    simp [Manager.can_start_new_task]
  · intro m todo wtOk h
    exact (start_new_task_loop_bound todo wtOk (todo.length + 1) m
      (m.active_tasks.map (fun p => p.1)) h).1

theorem admission_preserves_active_tasks_bound_witness :
    start_new_task_if_available ⟨0, [], [], []⟩ ["0001-a"] (fun _ => true) =
      (⟨0, [], [], []⟩ : Manager) ∧
    (start_new_task_if_available ⟨3, [], [], []⟩ ["0001-a"] (fun _ => true)
      ).active_tasks.length ≤ 3 := by
  constructor
  · exact admission_preserves_active_tasks_bound.1 ⟨0, [], [], []⟩ ["0001-a"]
      (fun _ => true) (by decide)
  · exact admission_preserves_active_tasks_bound.2.2 ⟨3, [], [], []⟩ ["0001-a"]
      (fun _ => true) (by decide)

/-- C4 (counterexample): `recover_existing_worktrees` adds every existing
task worktree to the manager without consulting `can_start_new_task`: with
`max_tasks = 3` and four recovered task worktrees, `len(active_tasks)`
reaches 4 > 3, so the invariant `len(active_tasks) ≤ N` does not survive
startup recovery. -/
theorem recovery_exceeds_active_tasks_bound :
    (recover_existing_worktrees ⟨3, [], [], []⟩
        [⟨"refs/heads/task/0001-a", none, false, true, false⟩,
         ⟨"refs/heads/task/0002-b", none, false, true, false⟩,
         ⟨"refs/heads/task/0003-c", none, false, true, false⟩,
         ⟨"refs/heads/task/0004-d", none, false, true, false⟩]).active_tasks.length = 4
  ∧ (recover_existing_worktrees ⟨3, [], [], []⟩
        [⟨"refs/heads/task/0001-a", none, false, true, false⟩,
         ⟨"refs/heads/task/0002-b", none, false, true, false⟩,
         ⟨"refs/heads/task/0003-c", none, false, true, false⟩,
         ⟨"refs/heads/task/0004-d", none, false, true, false⟩]).max_tasks = 3
  ∧ ¬ ((recover_existing_worktrees ⟨3, [], [], []⟩
        [⟨"refs/heads/task/0001-a", none, false, true, false⟩,
         ⟨"refs/heads/task/0002-b", none, false, true, false⟩,
         ⟨"refs/heads/task/0003-c", none, false, true, false⟩,
         ⟨"refs/heads/task/0004-d", none, false, true, false⟩]).active_tasks.length ≤
      (recover_existing_worktrees ⟨3, [], [], []⟩
        [⟨"refs/heads/task/0001-a", none, false, true, false⟩,
         ⟨"refs/heads/task/0002-b", none, false, true, false⟩,
         ⟨"refs/heads/task/0003-c", none, false, true, false⟩,
         ⟨"refs/heads/task/0004-d", none, false, true, false⟩]).max_tasks) := by
  refine ⟨by decide, by decide, by decide⟩
